import Mathlib

/-!
# Verification of the GrokHive orchestration engine

Shallow embedding of the orchestration core of `src/core/swarm.py` and the
PowerShell safety gate of `src/core/tools.py`, together with proofs of the
spec's testable properties.

Modelling conventions:
* Python strings are Lean `String`s (ASCII fragment: Python's Unicode-aware
  `\w`/`\s` regex classes are modelled over their ASCII members, which covers
  every concrete input used below).
* The network/JSON layer of `_call_grok` / `_call_ollama` is abstracted into
  algebraic response types mirroring exactly the dictionaries those functions
  return; the tool gateway (`execute_tool` + `json.dumps`) is an opaque
  function parameter, matching the spec's Tool Gateway contract.
* Thread interleavings are modelled by explicit parameters: the completion
  order of workers, and the first check index at which the shared
  cancellation flag is observed true.
-/

namespace GrokHive

/-! ## Python string helpers -/

/-- ASCII members of Python's `\s` class (`str.strip` / regex whitespace). -/
def isPySpace (c : Char) : Bool :=
  c = ' ' || c = '\t' || c = '\n' || c = '\r' || c = '\x0c' || c = '\x0b'

/-- Python `str.strip()` on a character list. -/
def pyStripL (l : List Char) : List Char :=
  ((l.dropWhile isPySpace).reverse.dropWhile isPySpace).reverse

/-- Python `str.strip()`. -/
def pyStrip (s : String) : String := String.mk (pyStripL s.data)

/-- Python `str.lower()` (ASCII). -/
def pyLower (s : String) : String := String.mk (s.data.map Char.toLower)

/-- Substring containment on character lists (Python `in` on `str`). -/
def containsSub (hay needle : List Char) : Bool :=
  match hay with
  | [] => needle.isEmpty
  | _ :: t => needle.isPrefixOf hay || containsSub t needle

/-- Python `sep.join(parts)`. -/
def pyJoin (sep : String) : List String → String
  | [] => ""
  | [x] => x
  | x :: y :: t => x ++ sep ++ pyJoin sep (y :: t)

/-- Zero-pad to two digits, as in the Python format `f"{n:02d}"`. -/
def pad2 (n : Nat) : String :=
  if n < 10 then "0" ++ toString n else toString n

/-- Python `os.path.basename` for `/`-separated paths. -/
def basename (p : String) : String :=
  String.mk ((p.data.reverse.takeWhile (· ≠ '/')).reverse)

/-! ## Backend responses (`_call_grok`, `src/core/swarm.py:37-105`)

`_call_grok` returns one of three dictionaries:
`{"success": False, "error": e}`, `{"success": True, "tool_calls": tcs,
"content": message.get("content", "")}`, or
`{"success": True, "reply": message.get("content", "")}`.
The `content` of a tool-call response is `Option String` because the JSON
message's `content` may be `null` (Python `None`). -/

/-- One entry of a `tool_calls` array: `{"id": …, "function": {"name": …,
"arguments": …}}`. -/
structure ToolCall where
  id : String
  name : String
  arguments : String
  deriving DecidableEq, Repr

/-- The result dictionary of a non-streaming `_call_grok` call. -/
inductive BackendResp where
  | failure (error : String)
  | toolCalls (calls : List ToolCall) (content : Option String)
  | reply (text : String)
  deriving DecidableEq, Repr

/-! ## Conversation messages -/

/-- One OpenAI-style chat message as built by `_run_agent`. -/
structure Message where
  role : String
  content : Option String
  tool_calls : List ToolCall := []
  tool_call_id : Option String := none
  deriving DecidableEq, Repr

/-- Python `x or None`: collapses the empty string to `None`
(`"content": result.get("content") or None`, swarm.py:260). -/
def contentOrNone : Option String → Option String
  | some s => if s = "" then none else some s
  | none => none

/-- The assistant message appended when the backend requests tools
(swarm.py:258-263). -/
def assistantMsg (content : Option String) (calls : List ToolCall) : Message :=
  { role := "assistant", content := contentOrNone content, tool_calls := calls }

/-- The tool message appended per tool call (swarm.py:278-282); `gw` is the
opaque gateway producing the serialized tool result
(`json.dumps(execute_tool(...))`). -/
def toolMsg (gw : ToolCall → String) (tc : ToolCall) : Message :=
  { role := "tool", content := some (gw tc), tool_call_id := some tc.id }

/-! ## The agent loop (`_run_agent`, `src/core/swarm.py:196-290`) -/

/-- How a `_run_agent` invocation terminates: a Python `return` of a value
(string or `None`), or the unhandled `UnboundLocalError`/`NameError` raised
by `result.get(...)` when the `for` loop body never ran. -/
inductive RunOutcome where
  | returned (v : Option String)
  | nameError
  deriving DecidableEq, Repr

/-- The value `result.get("reply", result.get("content", "[Max tool rounds]"))`
(swarm.py:290), written out for each response dictionary's keys. -/
def exhaustedValue : BackendResp → Option String
  | .failure _ => some "[Max tool rounds]"
  | .toolCalls _ content => content
  | .reply t => some t

/-- Instrumented trace of one `_run_agent` invocation: the outcome, the final
conversation, the number of backend calls made, and every `ToolCallRequest`
received across all rounds. -/
structure AgentRun where
  outcome : RunOutcome
  messages : List Message
  calls : Nat
  received : List ToolCall
  last : Option BackendResp
  deriving Repr

/-- The `for _round in range(max_tool_rounds)` loop of `_run_agent`
(swarm.py:249-290). `backend` abstracts `_call_grok` as a function of the
conversation so far; `fuel` is the remaining number of rounds. -/
def agentLoop (backend : List Message → BackendResp) (gw : ToolCall → String)
    (roleName : String) :
    Nat → List Message → Nat → List ToolCall → Option BackendResp → AgentRun
  | 0, msgs, ncalls, recvd, lastR =>
    match lastR with
    | none => ⟨.nameError, msgs, ncalls, recvd, none⟩
    | some r => ⟨.returned (exhaustedValue r), msgs, ncalls, recvd, some r⟩
  | fuel + 1, msgs, ncalls, recvd, _ =>
    match backend msgs with
    | .failure err =>
      ⟨.returned (some ("[" ++ roleName ++ " ERROR] " ++ err)),
        msgs, ncalls + 1, recvd, some (.failure err)⟩
    | .toolCalls calls content =>
      agentLoop backend gw roleName fuel
        (msgs ++ [assistantMsg content calls] ++ calls.map (toolMsg gw))
        (ncalls + 1) (recvd ++ calls) (some (.toolCalls calls content))
    | .reply t =>
      ⟨.returned (some t), msgs, ncalls + 1, recvd, some (.reply t)⟩

/-- The initial conversation built by `_run_agent` (swarm.py:239-247): the
role system prompt, the optional context message (skipped when `context` is
empty — Python truthiness), then the user task. The long instruction body of
the system prompt is inert prose; only its presence matters here. -/
def initialMessages (systemPrompt context task : String) : List Message :=
  [{ role := "system", content := some systemPrompt }]
    ++ (if context = "" then []
        else [{ role := "system",
                content := some ("Attached context files:\n\n" ++ context) }])
    ++ [{ role := "user", content := some task }]

/-- The function `_run_agent` (swarm.py:196-290) with the backend and tool gateway as
parameters. -/
def run_agent (backend : List Message → BackendResp) (gw : ToolCall → String)
    (roleName systemPrompt context task : String) (max_tool_rounds : Nat) :
    AgentRun :=
  agentLoop backend gw roleName max_tool_rounds
    (initialMessages systemPrompt context task) 0 [] none

/-! ## Streaming (`_call_grok` lines 70-89, `_call_ollama` lines 134-151)

Each backend's stream is a list of already-parsed lines. For the hosted
backend a raw line is: not a `data: ` line or unparsable JSON (`noise`),
the `data: [DONE]` sentinel (`done`), or a parsed chunk whose delta content
is `none` (absent/null) or a string. For the local backend a line is empty
or unparsable (`noise`), or a chunk with a content string (`""` default)
and a `done` flag. -/

/-- One parsed SSE line of a hosted-backend stream. -/
inductive SseLine where
  | noise
  | done
  | chunk (content : Option String)
  deriving DecidableEq, Repr

/-- One parsed line of a local-backend (Ollama) stream. -/
inductive OllamaLine where
  | noise
  | chunk (content : String) (done : Bool)
  deriving DecidableEq, Repr

/-- The hosted-backend streaming loop (swarm.py:71-88), instrumented: returns
the trace of `on_token` invocations and the `full_text` accumulator. -/
def grokStreamLoop : List SseLine → List String → List String →
    List String × List String
  | [], toks, full => (toks, full)
  | .noise :: rest, toks, full => grokStreamLoop rest toks full
  | .done :: _, toks, full => (toks, full)
  | .chunk none :: rest, toks, full => grokStreamLoop rest toks full
  | .chunk (some c) :: rest, toks, full =>
    if c = "" then grokStreamLoop rest toks full
    else grokStreamLoop rest (toks ++ [c]) (full ++ [c])

/-- Tokens forwarded to `on_token` by the hosted backend, in order. -/
def grokTokens (ls : List SseLine) : List String := (grokStreamLoop ls [] []).1

/-- The `reply` of a streaming `_call_grok` call: `"".join(full_text)`. -/
def grokStreamReply (ls : List SseLine) : String :=
  pyJoin "" (grokStreamLoop ls [] []).2

/-- The local-backend streaming loop (swarm.py:135-150), instrumented the
same way. Note a line may carry both content and the `done` flag: its
content is forwarded, then the loop breaks. -/
def ollamaStreamLoop : List OllamaLine → List String → List String →
    List String × List String
  | [], toks, full => (toks, full)
  | .noise :: rest, toks, full => ollamaStreamLoop rest toks full
  | .chunk c d :: rest, toks, full =>
    let toks' := if c = "" then toks else toks ++ [c]
    let full' := if c = "" then full else full ++ [c]
    if d then (toks', full') else ollamaStreamLoop rest toks' full'

/-- Tokens forwarded to `on_token` by the local backend, in order. -/
def ollamaTokens (ls : List OllamaLine) : List String :=
  (ollamaStreamLoop ls [] []).1

/-- The `reply` of a streaming `_call_ollama` call: `"".join(full_text)`. -/
def ollamaStreamReply (ls : List OllamaLine) : String :=
  pyJoin "" (ollamaStreamLoop ls [] []).2

/-- Specification-side description of the hosted stream's fragments: the
nonempty chunk contents strictly before the first `[DONE]` sentinel, in
arrival order. -/
def grokFragments (ls : List SseLine) : List String :=
  (ls.takeWhile (· ≠ SseLine.done)).filterMap fun l =>
    match l with
    | .chunk (some c) => if c = "" then none else some c
    | _ => none

/-- Specification-side description of the local stream's fragments: the
nonempty chunk contents up to and including the first `done`-flagged chunk. -/
def ollamaFragments : List OllamaLine → List String
  | [] => []
  | .noise :: rest => ollamaFragments rest
  | .chunk c d :: rest =>
    (if c = "" then [] else [c]) ++ (if d then [] else ollamaFragments rest)

/-! ## Swarm orchestrator (`MiniGrokSwarm.run`, `src/core/swarm.py:336-479`) -/

/-- Outcome of the synthesis (verifier) backend call: the streaming
`_call_grok`/`_call_ollama` returns `{"success": True, "reply": …}` or
`{"success": False, "error": …}`. Modelled as a function of the merged
user-message content it is given. -/
inductive VResult where
  | ok (reply : String)
  | err (error : String)
  deriving DecidableEq, Repr

/-- The dictionary returned by `MiniGrokSwarm.run`. `agent_outputs` is the
Python dict as an insertion-ordered association list. -/
structure RunResult where
  success : Bool
  error : Option String
  final_output : Option String
  agent_outputs : List (String × String)
  deriving DecidableEq, Repr

/-- Python `d[k] = v` on an insertion-ordered dict. -/
def dictSet (d : List (String × String)) (k v : String) :
    List (String × String) :=
  if d.any (fun p => p.1 = k) then
    d.map (fun p => if p.1 = k then (k, v) else p)
  else d ++ [(k, v)]

/-- Python `agent_outputs[name] = output` over a list of collected results. -/
def dictOf (l : List (String × String)) : List (String × String) :=
  l.foldl (fun d p => dictSet d p.1 p.2) []

/-- Whether the shared `_cancelled` flag reads true at observation index
`k`, given that its first true observation is index `t` (`none` = never). -/
def cancelSet : Option Nat → Nat → Bool
  | none, _ => false
  | some t, k => t ≤ k

/-- The `as_completed` collection loop (swarm.py:398-405): before collecting
each completed worker result the flag is checked (observation `k`) and the
loop breaks if it is set. -/
def phase1collect (cancelFrom : Option Nat) :
    Nat → List (String × String) → List (String × String)
  | _, [] => []
  | k, r :: rs =>
    if cancelSet cancelFrom k then []
    else r :: phase1collect cancelFrom (k + 1) rs

/-- The merged document handed to the verifier (swarm.py:416-419):
`"\n\n".join(f"──── {role} ────\n{out}" …)`. -/
def mergeOutputs (outs : List (String × String)) : String :=
  pyJoin "\n\n" (outs.map fun p => "──── " ++ p.1 ++ " ────\n" ++ p.2)

/-- The method `MiniGrokSwarm.run` from the point where worker futures complete
(swarm.py:398-479). `completed` is the workers' `(role, output)` results in
completion order; `cancelFrom` is the first check index at which the
cancellation flag is observed true (the post-loop check at swarm.py:407 is
observation `completed.length`); `verifier` abstracts the streaming
synthesis backend as a function of the merged document. -/
def swarmRun (completed : List (String × String)) (cancelFrom : Option Nat)
    (verifier : String → VResult) : RunResult :=
  let agent_outputs := dictOf (phase1collect cancelFrom 0 completed)
  if cancelSet cancelFrom completed.length then
    { success := false, error := some "Cancelled", final_output := none,
      agent_outputs := agent_outputs }
  else
    match verifier (mergeOutputs agent_outputs) with
    | .ok reply =>
      { success := true, error := none, final_output := some reply,
        agent_outputs := agent_outputs }
    | .err e =>
      { success := false, error := some e, final_output := none,
        agent_outputs := agent_outputs }

/-- What a worker's `_run_agent` call does: return a string, or raise. -/
inductive WorkerBeh where
  | ok (output : String)
  | raises (e : String)
  deriving DecidableEq, Repr

/-- The worker body `_run_single` (swarm.py:356-389) for role `roleName`
with agent-loop behavior `beh`: checks the cancellation flag first, then
runs the agent loop under `try/except`, converting any exception into
`f"[{role_name} ERROR] {e}"`. Total by construction — the exception never
escapes the worker. -/
def run_single (cancelled : Bool) (roleName : String) (beh : WorkerBeh) :
    String × String :=
  if cancelled then (roleName, "[Cancelled]")
  else
    match beh with
    | .ok out => (roleName, out)
    | .raises e => (roleName, "[" ++ roleName ++ " ERROR] " ++ e)

/-- Credential assignment inside `_run_single` (swarm.py:360):
`key = keys[i % len(keys)]`. -/
def workerKey (keys : List String) (i : Nat) : String :=
  keys.getD (i % keys.length) ""

/-- The credential assigned to each role index of one run
(swarm.py:394-396: workers are submitted with `enumerate(self.roles)`). -/
def runAssignments (roles : List (String × String)) (keys : List String) :
    List String :=
  (List.range roles.length).map (workerKey keys)

/-! ## `NEXT:` extraction (`run_research_loop`, swarm.py:667-673)

`re.findall(r'NEXT:\s*(.+)', output_text, re.IGNORECASE)` followed by
`next_topics[0].strip()`. The regex is embedded directly: a match at a
position is the case-insensitive literal `next:` followed by `\s*(.+)` with
greedy matching and backtracking (`.` excludes `\n`; `\s` may match `\n`). -/

/-- Matching of `(.+)` at the current position: one or more non-newline characters,
greedy. Returns the captured text, or `none` if no non-newline character
starts here. -/
def dotPlus : List Char → Option (List Char)
  | [] => none
  | c :: cs => if c = '\n' then none else some (c :: cs.takeWhile (· ≠ '\n'))

/-- Matching of `\s*(.+)` at the current position: the star is greedy and backtracks
one character at a time until `(.+)` can match. -/
def wsStarDotPlus : List Char → Option (List Char)
  | [] => none
  | c :: cs =>
    if isPySpace c then
      match wsStarDotPlus cs with
      | some g => some g
      | none => dotPlus (c :: cs)
    else dotPlus (c :: cs)

/-- Whole-pattern match of `NEXT:\s*(.+)` (case-insensitive) anchored at the
start of `cs`; returns the captured group. -/
def matchNextAt (cs : List Char) : Option (List Char) :=
  if (cs.take 5).map Char.toLower = "next:".data then wsStarDotPlus (cs.drop 5)
  else none

/-- The leftmost match of the pattern in the text (`re.findall`'s first
element): scan left to right for the first position where the pattern
matches. -/
def findFirstNext : List Char → Option (List Char)
  | [] => none
  | c :: cs =>
    match matchNextAt (c :: cs) with
    | some g => some g
    | none => findFirstNext cs

/-- The next round's subtopic (swarm.py:667-673): the first `NEXT:` capture
stripped, else `f"{topic} — deeper dive round {round_num + 1}"`. -/
def nextSubtopic (topic : String) (round_num : Nat) (output_text : String) :
    String :=
  match findFirstNext output_text.data with
  | some g => String.mk (pyStripL g)
  | none => topic ++ " — deeper dive round " ++ toString (round_num + 1)

/-! ## Research-loop text post-processing (swarm.py:642-649) -/

/-- Auxiliary: `dropWhile` never lengthens a list. -/
theorem length_dropWhile_le (p : Char → Bool) (l : List Char) :
    (l.dropWhile p).length ≤ l.length := by
  induction l with
  | nil => simp
  | cons c t ih =>
    by_cases h : p c
    · simpa [List.dropWhile, h] using Nat.le_succ_of_le ih
    · simp [List.dropWhile, h]

/-- Embedding of `re.sub(r'</?think>', '', t)`: drop each leftmost
occurrence of `<think>` or `</think>` while scanning left to right. -/
def removeThink : List Char → List Char
  | '<' :: '/' :: 't' :: 'h' :: 'i' :: 'n' :: 'k' :: '>' :: rest =>
    removeThink rest
  | '<' :: 't' :: 'h' :: 'i' :: 'n' :: 'k' :: '>' :: rest =>
    removeThink rest
  | c :: rest => c :: removeThink rest
  | [] => []

/-- ASCII members of Python's `\w` class. -/
def isWordChar (c : Char) : Bool := c.isAlphanum || c = '_'

/-- Scanner for `re.sub(r'\s+', '_', s)`: the flag records whether the
previous character was whitespace (i.e. inside a run already replaced). -/
def collapseWsFrom : Bool → List Char → List Char
  | _, [] => []
  | prevSpace, c :: rest =>
    if isPySpace c then
      (if prevSpace then [] else ['_']) ++ collapseWsFrom true rest
    else c :: collapseWsFrom false rest

/-- Embedding of `re.sub(r'\s+', '_', s)`: collapse each maximal
whitespace run to one underscore. -/
def collapseWs (cs : List Char) : List Char := collapseWsFrom false cs

/-- The filesystem-safe slug of a subtopic (swarm.py:647-648):
`re.sub(r'[^\w\s-]', '', t)[:50].strip()` then `re.sub(r'\s+', '_', ·)`. -/
def slug (s : String) : String :=
  String.mk (collapseWs (pyStripL
    ((s.data.filter fun c => isWordChar c || isPySpace c || c = '-').take 50)))

/-! ## Research loop artifact bookkeeping (swarm.py:485-697)

The uncancelled execution path is modelled (claim C8's premise). Each round
is summarised by what the environment did: whether the raw-data file exists
and its size (`os.path.exists`/`os.path.getsize`, swarm.py:597-599 and 658),
the verifier's streaming result, and the scraper's returned text (used as
fallback catalog text when the verifier fails, swarm.py:642). -/

/-- Environment-determined data of one research round. -/
structure RoundData where
  rawExists : Bool
  rawSize : Nat
  verifier : VResult
  scraperOutput : String
  deriving Repr

/-- The catalog text of a round (swarm.py:642-644): the verifier reply when
it succeeded else the scraper output, with `</?think>` tags removed, then
stripped. -/
def roundOutputText (rd : RoundData) : String :=
  String.mk (pyStripL (removeThink
    (match rd.verifier with
     | .ok r => r
     | .err _ => rd.scraperOutput).data))

/-- The raw-data file path of a round (swarm.py:522-525):
`f"raw_data_round_{round_num:02d}.txt"` under `output_dir`. -/
def raw_file_path (output_dir : String) (round_num : Nat) : String :=
  output_dir ++ "/raw_data_round_" ++ pad2 round_num ++ ".txt"

/-- The catalog file path of a round (swarm.py:649-650):
`f"round_{round_num:02d}_{safe_name}.md"` under `output_dir`. -/
def catalog_path (output_dir : String) (round_num : Nat)
    (current_task : String) : String :=
  output_dir ++ "/round_" ++ pad2 round_num ++ "_" ++ slug current_task ++ ".md"

/-- Whether a round's raw-data file is recorded as an artifact
(swarm.py:597-599 and 658): it exists and `raw_size > 0`. -/
def rawKept (rd : RoundData) : Bool :=
  rd.rawExists && decide (0 < (if rd.rawExists then rd.rawSize else 0))

/-- The per-round portion of the loop (swarm.py:514-676): returns the
`files_created` entries contributed by the remaining rounds, threading the
evolving `current_task`. Per round it appends the catalog path and, when
the raw file exists with nonzero size, the raw path. -/
def researchGo (topic output_dir : String) :
    Nat → String → List RoundData → List String
  | _, _, [] => []
  | round_num, current_task, rd :: rest =>
    [catalog_path output_dir round_num current_task]
      ++ (if rawKept rd then [raw_file_path output_dir round_num] else [])
      ++ researchGo topic output_dir (round_num + 1)
          (nextSubtopic topic round_num (roundOutputText rd)) rest

/-- The artifact-relevant outcome of `run_research_loop`. `indexListed` is
the list of file names enumerated in the body of `research_index.md`. -/
structure ResearchResult where
  files_created : List String
  indexListed : List String
  success : Bool
  total_rounds : Nat
  deriving Repr

/-- The method `run_research_loop` and its artifact bookkeeping (swarm.py:506-697), without
cancellation: run all rounds from subtopic `topic`, then write the master
index. The index body enumerates `files_created` *before* `index_path` is
appended to it (swarm.py:680-689), and `total_rounds` counts files whose
basename starts with `round_` (swarm.py:693-694). -/
def run_research_loop (topic output_dir : String) (rounds : List RoundData) :
    ResearchResult :=
  let files := researchGo topic output_dir 1 topic rounds
  let index_path := output_dir ++ "/research_index.md"
  { files_created := files ++ [index_path]
    indexListed := files.map basename
    success := true
    total_rounds :=
      ((files ++ [index_path]).filter
        (fun f => (basename f).startsWith "round_")).length }

/-! ## PowerShell safety gate (`src/core/tools.py:61-197`) -/

/-- The table `_PS_BLOCKLIST` (tools.py:61-85), verbatim. -/
def PS_BLOCKLIST : List (String × String) :=
  [ ("uninstall",               "Cannot uninstall software"),
    ("remove-appxpackage",      "Cannot remove Windows apps"),
    ("remove-windowsfeature",   "Cannot remove Windows features"),
    ("remove-windowsoptionalfeature", "Cannot remove Windows features"),
    ("format-volume",           "Cannot format drives"),
    ("format c:",               "Cannot format drives"),
    ("format d:",               "Cannot format drives"),
    ("stop-computer",           "Cannot shut down computer"),
    ("restart-computer",        "Cannot restart computer"),
    ("shutdown",                "Cannot shut down computer"),
    ("clear-recyclebin",        "Cannot clear recycle bin"),
    ("bcdedit",                 "Cannot modify boot configuration"),
    ("diskpart",                "Cannot modify disk partitions"),
    ("reg delete",              "Cannot delete registry keys"),
    ("set-executionpolicy unrestricted", "Cannot change execution policy"),
    ("remove-item c:\\windows",  "Cannot delete Windows system files"),
    ("remove-item c:\\program",  "Cannot delete Program Files"),
    ("remove-item -recurse c:\\","Cannot recursively delete C: drive"),
    ("del /s c:\\windows",       "Cannot delete Windows system files"),
    ("rmdir /s c:\\windows",     "Cannot delete Windows system folders"),
    ("system32",                "Cannot touch System32"),
    ("new-service",             "Cannot create Windows services"),
    ("remove-service",          "Cannot remove Windows services") ]

/-- The normalized command text checked against the blocklist
(tools.py:90): `cmd.lower().replace("/", "\\").strip()`. -/
def normalizeCmd (cmd : String) : List Char :=
  pyStripL ((pyLower cmd).data.map fun c => if c = '/' then '\\' else c)

/-- The function `_check_powershell_blocklist` (tools.py:88-94): the reason of the first
blocklist entry whose pattern occurs in the normalized command. -/
def check_powershell_blocklist (cmd : String) : Option String :=
  (PS_BLOCKLIST.find? fun p => containsSub (normalizeCmd cmd) p.1.data).map
    Prod.snd

/-- Safety levels (tools.py:35-37). -/
inductive Safety where
  | read_only
  | confirmed
  | full_auto
  deriving DecidableEq, Repr

/-- How a `run_powershell` call terminates before/at the execution step. -/
inductive PsOutcome where
  | blocked (reason : String)
  | safetyBlocked
  | denied
  | executed
  deriving DecidableEq, Repr

/-- The method `SwarmTools.run_powershell` up to the `subprocess.run` call
(tools.py:171-183): hard blocklist first, then the safety level, then the
user-confirmation gate (`confirm` is the user's answer). -/
def run_powershell (safety : Safety) (confirm : Bool) (cmd : String) :
    PsOutcome :=
  match check_powershell_blocklist cmd with
  | some reason => .blocked reason
  | none =>
    if safety = .read_only then .safetyBlocked
    else if safety = .confirmed && !confirm then .denied
    else .executed

/-! ## Agent-loop lemmas -/

/-- Under a backend that always requests tools, an agent loop with positive
fuel makes exactly `fuel` backend calls, ends holding its final tool-call
response, and returns that response's assistant content. -/
theorem agentLoop_all_tools (backend : List Message → BackendResp)
    (gw : ToolCall → String) (roleName : String)
    (hb : ∀ msgs, ∃ calls content, backend msgs = .toolCalls calls content) :
    ∀ R : Nat, 1 ≤ R → ∀ msgs ncalls recvd lastR,
      (agentLoop backend gw roleName R msgs ncalls recvd lastR).calls
          = ncalls + R
      ∧ ∃ calls content,
          (agentLoop backend gw roleName R msgs ncalls recvd lastR).last
            = some (.toolCalls calls content)
          ∧ (agentLoop backend gw roleName R msgs ncalls recvd lastR).outcome
            = .returned content := by
  intro R
  induction R with
  | zero => intro h; exact absurd h (by omega)
  | succ n ih =>
    intro _ msgs ncalls recvd lastR
    obtain ⟨cs, ct, hbm⟩ := hb msgs
    by_cases hn : n = 0
    · subst hn
      simp [agentLoop, hbm, exhaustedValue]
    · have h1 : 1 ≤ n := Nat.one_le_iff_ne_zero.mpr hn
      have hrec := ih h1
        (msgs ++ [assistantMsg ct cs] ++ cs.map (toolMsg gw))
        (ncalls + 1) (recvd ++ cs) (some (.toolCalls cs ct))
      simp only [agentLoop, hbm]
      obtain ⟨hc, calls', content', hl, ho⟩ := hrec
      exact ⟨by omega, calls', content', hl, ho⟩

/-- Invariant of the agent loop: the tool messages of the conversation
back-reference, in order, exactly the tool-call requests received so far. -/
theorem agentLoop_tool_ids (backend : List Message → BackendResp)
    (gw : ToolCall → String) (roleName : String) :
    ∀ (fuel : Nat) (msgs : List Message) (ncalls : Nat)
      (recvd : List ToolCall) (lastR : Option BackendResp),
      (msgs.filter (fun m => m.role == "tool")).map Message.tool_call_id
          = recvd.map (fun tc => some tc.id) →
      ((agentLoop backend gw roleName fuel msgs ncalls recvd lastR).messages.filter
          (fun m => m.role == "tool")).map Message.tool_call_id
        = (agentLoop backend gw roleName fuel msgs ncalls recvd
            lastR).received.map (fun tc => some tc.id) := by
  intro fuel
  induction fuel with
  | zero =>
    intro msgs ncalls recvd lastR hinv
    cases lastR <;> simpa [agentLoop] using hinv
  | succ n ih =>
    intro msgs ncalls recvd lastR hinv
    cases hbm : backend msgs with
    | failure err => simpa [agentLoop, hbm] using hinv
    | reply t => simpa [agentLoop, hbm] using hinv
    | toolCalls cs ct =>
      simp only [agentLoop, hbm]
      apply ih
      simp only [List.filter_append, List.map_append, hinv]
      have hassist :
          List.filter (fun m => m.role == "tool") [assistantMsg ct cs] = [] := by
        simp [assistantMsg, List.filter]
      have htools :
          List.filter (fun m => m.role == "tool") (cs.map (toolMsg gw))
            = cs.map (toolMsg gw) := by
        apply List.filter_eq_self.mpr
        intro m hm
        obtain ⟨tc, _, rfl⟩ := List.mem_map.mp hm
        rfl
      rw [hassist, htools]
      simp [List.map_map, toolMsg, Function.comp]

/-! ## Claim theorems -/

/-- C1, counterexample to the claim as stated: with round budget 2 and a
backend whose every (successful) tool-call response carries `content: null`
— the typical shape of an OpenAI-style tool-call message — the loop makes
its 2 backend calls and then returns the Python value `None`
(`.returned none`): neither the last available assistant text nor the
`"[Max tool rounds]"` placeholder, which is unreachable because
`_call_grok` always sets the `content` key of a tool-call response
(swarm.py:101). -/
theorem C1_null_content_counterexample :
    (run_agent (fun _ => .toolCalls [⟨"id1", "t", "{}"⟩] none)
        (fun _ => "ok") "R" "sys" "" "task" 2).calls = 2
    ∧ (run_agent (fun _ => .toolCalls [⟨"id1", "t", "{}"⟩] none)
        (fun _ => "ok") "R" "sys" "" "task" 2).outcome = .returned none
    ∧ (run_agent (fun _ => .toolCalls [⟨"id1", "t", "{}"⟩] none)
        (fun _ => "ok") "R" "sys" "" "task" 2).outcome
      ≠ .returned (some "[Max tool rounds]") := by
  refine ⟨by decide, by decide, by decide⟩

/-- C1 as amended: for every agent-loop run with round budget `R ≥ 1` in
which every backend call succeeds and returns tool calls, `_run_agent`
makes exactly `R` backend calls — one per round, never more — and after the
`R`-th round returns, as a partial-success result rather than an error or
exception, the final response's content value: the last available assistant
text when that content is a string, Python `None` when it is null; the
fixed `"[Max tool rounds]"` placeholder would be returned only for a
response dict carrying no content key, which `_call_grok` never produces. -/
theorem C1_round_budget_exhaustion (backend : List Message → BackendResp)
    (gw : ToolCall → String) (roleName sys ctx task : String) (R : Nat)
    (hb : ∀ msgs, ∃ calls content, backend msgs = .toolCalls calls content)
    (hR : 1 ≤ R) :
    (run_agent backend gw roleName sys ctx task R).calls = R
    ∧ ∃ calls content,
        (run_agent backend gw roleName sys ctx task R).last
          = some (.toolCalls calls content)
        ∧ (run_agent backend gw roleName sys ctx task R).outcome
          = .returned content := by
  have h := agentLoop_all_tools backend gw roleName hb R hR
    (initialMessages sys ctx task) 0 [] none
  simpa [run_agent] using h

/-- Concrete instantiation of C1: a backend that always asks for one tool
call, with budget 3. -/
theorem C1_round_budget_exhaustion_witness :
    (run_agent (fun _ => .toolCalls [⟨"id1", "t", "{}"⟩] (some "work"))
        (fun _ => "ok") "R" "sys" "" "task" 3).calls = 3
    ∧ ∃ calls content,
        (run_agent (fun _ => .toolCalls [⟨"id1", "t", "{}"⟩] (some "work"))
            (fun _ => "ok") "R" "sys" "" "task" 3).last
          = some (.toolCalls calls content)
        ∧ (run_agent (fun _ => .toolCalls [⟨"id1", "t", "{}"⟩] (some "work"))
            (fun _ => "ok") "R" "sys" "" "task" 3).outcome
          = .returned content :=
  C1_round_budget_exhaustion _ _ "R" "sys" "" "task" 3
    (fun _ => ⟨_, _, rfl⟩) (by omega)

/-- C2: over every agent-loop run, the tool-role messages appended to the
conversation back-reference, positionally, exactly the tool-call requests
received across all rounds: equal counts, and the i-th tool message's
`tool_call_id` is the id of the i-th (distinct) prior request — no
duplicates, no orphans. -/
theorem C2_tool_message_bijection (backend : List Message → BackendResp)
    (gw : ToolCall → String) (roleName sys ctx task : String) (R : Nat) :
    ((run_agent backend gw roleName sys ctx task R).messages.filter
        (fun m => m.role == "tool")).map Message.tool_call_id
      = (run_agent backend gw roleName sys ctx task R).received.map
          (fun tc => some tc.id)
    ∧ ((run_agent backend gw roleName sys ctx task R).messages.filter
        (fun m => m.role == "tool")).length
      = (run_agent backend gw roleName sys ctx task R).received.length := by
  have hinit :
      ((initialMessages sys ctx task).filter
          (fun m => m.role == "tool")).map Message.tool_call_id
        = ([] : List ToolCall).map (fun tc => some tc.id) := by
    by_cases h : ctx = "" <;> simp [initialMessages, h, List.filter]
  have h := agentLoop_tool_ids backend gw roleName R
    (initialMessages sys ctx task) 0 [] none hinit
  refine ⟨by simpa [run_agent] using h, ?_⟩
  have := congrArg List.length (by simpa [run_agent] using h :
    ((run_agent backend gw roleName sys ctx task R).messages.filter
        (fun m => m.role == "tool")).map Message.tool_call_id
      = (run_agent backend gw roleName sys ctx task R).received.map
          (fun tc => some tc.id))
  simpa using this

/-- C10: called with `max_tool_rounds = 0`, `_run_agent` makes no backend
call and its post-loop `return result.get(...)` raises an unhandled
`UnboundLocalError` (a `NameError`): `result` was never bound. -/
theorem C10_zero_budget_name_error (backend : List Message → BackendResp)
    (gw : ToolCall → String) (roleName sys ctx task : String) :
    (run_agent backend gw roleName sys ctx task 0).calls = 0
    ∧ (run_agent backend gw roleName sys ctx task 0).outcome
        = .nameError := ⟨rfl, rfl⟩

/-! ## Orchestrator lemmas -/

/-- With no cancellation, the collection loop collects every completed
worker result. -/
theorem phase1collect_none :
    ∀ (l : List (String × String)) (k : Nat), phase1collect none k l = l := by
  intro l
  induction l with
  | nil => intro k; rfl
  | cons r rs ih => intro k; simp [phase1collect, cancelSet, ih]

/-- With the cancellation flag first observed true at check `t`, the
collection loop starting at check `k` collects the first `t - k` results. -/
theorem phase1collect_take :
    ∀ (l : List (String × String)) (t k : Nat),
      phase1collect (some t) k l = l.take (t - k) := by
  intro l
  induction l with
  | nil => intro t k; simp [phase1collect]
  | cons r rs ih =>
    intro t k
    by_cases h : t ≤ k
    · simp [phase1collect, cancelSet, h, Nat.sub_eq_zero_of_le h]
    · have ht : t - k = (t - (k + 1)) + 1 := by omega
      simp [phase1collect, cancelSet, h, ht, ih]

/-- Folding Python dict insertion over pairs with pairwise-distinct keys,
none of which occur in the accumulator, appends them in order. -/
theorem dictFold_eq_append :
    ∀ (l acc : List (String × String)),
      (∀ p ∈ l, ∀ q ∈ acc, q.1 ≠ p.1) → (l.map Prod.fst).Nodup →
      l.foldl (fun d p => dictSet d p.1 p.2) acc = acc ++ l := by
  intro l
  induction l with
  | nil => intro acc _ _; simp
  | cons p rest ih =>
    intro acc hdisj hnd
    have hset : dictSet acc p.1 p.2 = acc ++ [p] := by
      have : acc.any (fun q => q.1 = p.1) = false := by
        rw [List.any_eq_false]
        intro q hq
        simpa using hdisj p (by simp) q hq
      simp [dictSet, this]
    have hnd' : (rest.map Prod.fst).Nodup := by
      simpa using (List.nodup_cons.mp (by simpa using hnd)).2
    have hdisj' : ∀ r ∈ rest, ∀ q ∈ acc ++ [p], q.1 ≠ r.1 := by
      intro r hr q hq
      rcases List.mem_append.mp hq with hq | hq
      · exact hdisj r (by simp [hr]) q hq
      · have hq' : q = p := by simpa using hq
        intro hEq
        rw [hq'] at hEq
        have hpfst : p.1 ∈ rest.map Prod.fst :=
          List.mem_map.mpr ⟨r, hr, hEq.symm⟩
        exact (List.nodup_cons.mp (by simpa using hnd)).1 hpfst
    calc (p :: rest).foldl (fun d q => dictSet d q.1 q.2) acc
        = rest.foldl (fun d q => dictSet d q.1 q.2) (acc ++ [p]) := by
          simp [List.foldl_cons, hset]
      _ = (acc ++ [p]) ++ rest := ih (acc ++ [p]) hdisj' hnd'
      _ = acc ++ (p :: rest) := by simp

/-- A Python dict built from pairs with pairwise-distinct keys is those
pairs in insertion order. -/
theorem dictOf_nodup (l : List (String × String))
    (h : (l.map Prod.fst).Nodup) : dictOf l = l := by
  have := dictFold_eq_append l [] (by intro p _ q hq; simp at hq) h
  simpa [dictOf] using this

/-- The worker body preserves the role name as the outcome key. -/
theorem run_single_fst (cancelled : Bool) (roleName : String)
    (beh : WorkerBeh) : (run_single cancelled roleName beh).1 = roleName := by
  cases beh <;> simp [run_single] <;> split <;> rfl

/-- C3: cancellation semantics of `MiniGrokSwarm.run`. If the flag is
observed at the very first collection check, the run returns
`success=False` / `error="Cancelled"` with zero agent outcomes; if it is
first observed at the post-collection check, the cancelled result carries
every completed agent outcome and no synthesized text; and in general a
flag observed at check `t ≤ n` returns exactly the `t` already-collected
outcomes — never discarding them — with synthesis skipped. -/
theorem C3_cancellation_semantics (completed : List (String × String))
    (verifier : String → VResult) (t : Nat) (ht : t ≤ completed.length) :
    swarmRun completed (some 0) verifier
      = { success := false, error := some "Cancelled", final_output := none,
          agent_outputs := [] }
    ∧ swarmRun completed (some completed.length) verifier
      = { success := false, error := some "Cancelled", final_output := none,
          agent_outputs := dictOf completed }
    ∧ (swarmRun completed (some t) verifier).agent_outputs
        = dictOf (completed.take t)
    ∧ (swarmRun completed (some t) verifier).success = false
    ∧ (swarmRun completed (some t) verifier).final_output = none := by
  refine ⟨?_, ?_, ?_, ?_, ?_⟩
  · simp [swarmRun, cancelSet, phase1collect_take, dictOf]
  · simp [swarmRun, cancelSet, phase1collect_take]
  · simp [swarmRun, cancelSet, ht, phase1collect_take]
  · simp [swarmRun, cancelSet, ht, phase1collect_take]
  · simp [swarmRun, cancelSet, ht, phase1collect_take]

/-- Concrete instantiation of C3 with two completed workers and the flag
observed at checks 0 and 2. -/
theorem C3_cancellation_semantics_witness :
    swarmRun [("A", "x"), ("B", "y")] (some 0) (fun _ => .ok "r")
      = { success := false, error := some "Cancelled", final_output := none,
          agent_outputs := [] }
    ∧ swarmRun [("A", "x"), ("B", "y")] (some 2) (fun _ => .ok "r")
      = { success := false, error := some "Cancelled", final_output := none,
          agent_outputs := [("A", "x"), ("B", "y")] } := by
  have h := C3_cancellation_semantics [("A", "x"), ("B", "y")]
    (fun _ => .ok "r") 2 (by simp)
  refine ⟨h.1, ?_⟩
  have h2 := h.2.1
  have hl : ([("A", "x"), ("B", "y")] : List (String × String)).length = 2 :=
    rfl
  rw [hl] at h2
  rw [h2]
  decide

/-- C4: an exception raised inside one worker's agent loop is caught at the
worker boundary (`run_single` is total and converts it to
`f"[{role_name} ERROR] {e}"`), never propagates, never prevents the other
roles' outcomes from being recorded, and never prevents synthesis from
running over all recorded outcomes, the errored one included. -/
theorem C4_worker_fault_isolation (order : List (String × WorkerBeh))
    (r e : String) (verifier : String → VResult)
    (hmem : (r, WorkerBeh.raises e) ∈ order)
    (hnd : (order.map Prod.fst).Nodup) :
    (run_single false r (.raises e) = (r, "[" ++ r ++ " ERROR] " ++ e))
    ∧ ((swarmRun (order.map fun p => run_single false p.1 p.2) none
        verifier).agent_outputs
      = order.map fun p => run_single false p.1 p.2)
    ∧ ((r, "[" ++ r ++ " ERROR] " ++ e)
        ∈ (swarmRun (order.map fun p => run_single false p.1 p.2) none
            verifier).agent_outputs)
    ∧ ((swarmRun (order.map fun p => run_single false p.1 p.2) none
        verifier).final_output
      = (match verifier (mergeOutputs
            (order.map fun p => run_single false p.1 p.2)) with
         | .ok reply => some reply
         | .err _ => none)) := by
  have hkeys : ((order.map fun p => run_single false p.1 p.2).map
      Prod.fst).Nodup := by
    have hmaps : (order.map fun p => run_single false p.1 p.2).map Prod.fst
        = order.map Prod.fst := by
      rw [List.map_map]
      apply List.map_congr_left
      intro p _
      simpa using run_single_fst false p.1 p.2
    rw [hmaps]; exact hnd
  have houts : (swarmRun (order.map fun p => run_single false p.1 p.2) none
      verifier).agent_outputs
      = order.map fun p => run_single false p.1 p.2 := by
    simp only [swarmRun, cancelSet, phase1collect_none]
    cases hv : verifier (mergeOutputs (dictOf
        (order.map fun p => run_single false p.1 p.2))) <;>
      simp [hv, dictOf_nodup _ hkeys]
  refine ⟨rfl, houts, ?_, ?_⟩
  · rw [houts]
    have : run_single false r (.raises e)
        = (r, "[" ++ r ++ " ERROR] " ++ e) := rfl
    rw [← this]
    exact List.mem_map.mpr ⟨(r, WorkerBeh.raises e), hmem, rfl⟩
  · simp only [swarmRun, cancelSet, phase1collect_none,
      dictOf_nodup _ hkeys]
    cases hv : verifier (mergeOutputs
        (order.map fun p => run_single false p.1 p.2)) <;> simp [hv]

/-- Concrete instantiation of C4: two workers, the second raising. -/
theorem C4_worker_fault_isolation_witness :
    (swarmRun ([("A", WorkerBeh.ok "out"), ("B", WorkerBeh.raises "boom")].map
        fun p => run_single false p.1 p.2) none (fun m => .ok m)).agent_outputs
      = [("A", "out"), ("B", "[B ERROR] boom")]
    ∧ (swarmRun ([("A", WorkerBeh.ok "out"),
        ("B", WorkerBeh.raises "boom")].map
        fun p => run_single false p.1 p.2) none (fun m => .ok m)).final_output
      = some (mergeOutputs [("A", "out"), ("B", "[B ERROR] boom")]) := by
  have h := C4_worker_fault_isolation
    [("A", WorkerBeh.ok "out"), ("B", WorkerBeh.raises "boom")] "B" "boom"
    (fun m => .ok m) (by simp) (by simp)
  exact ⟨h.2.1, h.2.2.2⟩

/-- C5: worker `i` (0-based, role-list order) is assigned credential
`i mod K` (`keys[i % len(keys)]`), and two runs with identical role and
credential lists produce identical assignments — the rotation is a pure
function of the inputs. -/
theorem C5_round_robin_assignment (roles : List (String × String))
    (keys : List String) (hK : 0 < keys.length) :
    (∀ i, i < roles.length →
      (runAssignments roles keys)[i]?
        = some (keys.get ⟨i % keys.length, Nat.mod_lt i hK⟩))
    ∧ ∀ roles' keys', roles' = roles → keys' = keys →
        runAssignments roles' keys' = runAssignments roles keys := by
  constructor
  · intro i hi
    have h1 : (runAssignments roles keys)[i]? = some (workerKey keys i) := by
      simp [runAssignments, List.getElem?_map, List.getElem?_range, hi]
    rw [h1]
    congr 1
    have hlt : i % keys.length < keys.length := Nat.mod_lt i hK
    simp [workerKey, List.getD_eq_getElem?_getD, List.getElem?_eq_getElem hlt,
      List.get_eq_getElem]
  · intro roles' keys' h1 h2
    rw [h1, h2]

/-- Concrete instantiation of C5: three roles, two credentials. -/
theorem C5_round_robin_assignment_witness :
    (runAssignments [("a", ""), ("b", ""), ("c", "")] ["k1", "k2"])[2]?
      = some "k1" := by
  have h := (C5_round_robin_assignment [("a", ""), ("b", ""), ("c", "")]
    ["k1", "k2"] (by simp)).1 2 (by simp)
  simpa using h

/-! ## Streaming lemmas -/

/-- The hosted-backend streaming loop emits exactly the pre-sentinel
nonempty fragments, appended to both accumulators. -/
theorem grokStreamLoop_spec :
    ∀ (ls : List SseLine) (toks full : List String),
      grokStreamLoop ls toks full
        = (toks ++ grokFragments ls, full ++ grokFragments ls) := by
  intro ls
  induction ls with
  | nil => intro toks full; simp [grokStreamLoop, grokFragments]
  | cons l rest ih =>
    intro toks full
    cases l with
    | noise => simp [grokStreamLoop, grokFragments, List.takeWhile] at ih ⊢; simpa using ih toks full
    | done => simp [grokStreamLoop, grokFragments, List.takeWhile]
    | chunk c =>
      cases c with
      | none => simpa [grokStreamLoop, grokFragments, List.takeWhile] using ih toks full
      | some s =>
        by_cases hs : s = ""
        · subst hs
          simpa [grokStreamLoop, grokFragments, List.takeWhile] using ih toks full
        · simp only [grokStreamLoop, hs, if_neg hs]
          rw [ih (toks ++ [s]) (full ++ [s])]
          simp [grokFragments, List.takeWhile, hs]

/-- The local-backend streaming loop emits exactly the fragments up to and
including the first done-flagged chunk. -/
theorem ollamaStreamLoop_spec :
    ∀ (ls : List OllamaLine) (toks full : List String),
      ollamaStreamLoop ls toks full
        = (toks ++ ollamaFragments ls, full ++ ollamaFragments ls) := by
  intro ls
  induction ls with
  | nil => intro toks full; simp [ollamaStreamLoop, ollamaFragments]
  | cons l rest ih =>
    intro toks full
    cases l with
    | noise => simpa [ollamaStreamLoop, ollamaFragments] using ih toks full
    | chunk c d =>
      by_cases hc : c = ""
      · subst hc
        cases d with
        | true => simp [ollamaStreamLoop, ollamaFragments]
        | false => simpa [ollamaStreamLoop, ollamaFragments] using ih toks full
      · cases d with
        | true => simp [ollamaStreamLoop, ollamaFragments, hc]
        | false =>
          have hrec := ih (toks ++ [c]) (full ++ [c])
          simp [ollamaStreamLoop, ollamaFragments, hc, hrec]

/-- C6: for both streaming backends, `on_token` is invoked exactly once per
incremental nonempty text fragment, in arrival order (the token trace
equals the fragment sequence, which by construction excludes the
end-of-stream sentinel — the hosted backend's `[DONE]` line breaks before
forwarding, the local backend's `done` flag is a flag, not a token), and
the reply returned is the concatenation, in order, of exactly the tokens
passed to `on_token`. -/
theorem C6_streaming_token_delivery (ls : List SseLine)
    (ol : List OllamaLine) :
    grokTokens ls = grokFragments ls
    ∧ grokStreamReply ls = pyJoin "" (grokTokens ls)
    ∧ ollamaTokens ol = ollamaFragments ol
    ∧ ollamaStreamReply ol = pyJoin "" (ollamaTokens ol) := by
  have hg := grokStreamLoop_spec ls [] []
  have ho := ollamaStreamLoop_spec ol [] []
  refine ⟨?_, ?_, ?_, ?_⟩
  · simp [grokTokens, hg]
  · simp [grokStreamReply, grokTokens, hg]
  · simp [ollamaTokens, ho]
  · simp [ollamaStreamReply, ollamaTokens, ho]

/-! ## Leftmost-match characterization of the `NEXT:` extraction -/

/-- The scanner finds the leftmost position at which the pattern matches:
on success there is a position `p` where the pattern matches with the
returned capture and no earlier position matches; on failure no position
matches at all. -/
theorem findFirstNext_leftmost :
    ∀ cs : List Char,
      (findFirstNext cs = none → ∀ k, matchNextAt (cs.drop k) = none)
      ∧ (∀ g, findFirstNext cs = some g →
          ∃ p, matchNextAt (cs.drop p) = some g
            ∧ ∀ q, q < p → matchNextAt (cs.drop q) = none) := by
  intro cs
  induction cs with
  | nil =>
    constructor
    · intro _ k
      simp [List.drop_nil, matchNextAt, wsStarDotPlus]
    · intro g hg
      simp [findFirstNext] at hg
  | cons c rest ih =>
    constructor
    · intro hnone k
      have hm : matchNextAt (c :: rest) = none := by
        by_contra hne
        obtain ⟨g, hg⟩ := Option.ne_none_iff_exists'.mp hne
        simp [findFirstNext, hg] at hnone
      have hrest : findFirstNext rest = none := by
        simpa [findFirstNext, hm] using hnone
      cases k with
      | zero => simpa using hm
      | succ k' => simpa using ih.1 hrest k'
    · intro g hg
      cases hm : matchNextAt (c :: rest) with
      | some g' =>
        have hgg : g' = g := by simpa [findFirstNext, hm] using hg
        subst hgg
        exact ⟨0, by simpa using hm, by intro q hq; omega⟩
      | none =>
        have hrest : findFirstNext rest = some g := by
          simpa [findFirstNext, hm] using hg
        obtain ⟨p, hp, hmin⟩ := ih.2 g hrest
        refine ⟨p + 1, by simpa using hp, ?_⟩
        intro q hq
        cases q with
        | zero => simpa using hm
        | succ q' => simpa using hmin q' (by omega)

/-- C7: if the catalog text contains an occurrence of the case-insensitive
pattern `NEXT:\s*(.+)`, the next round's subtopic is the capture of the
first occurrence in document order, stripped of surrounding whitespace;
with no occurrence, the subtopic is the fallback string built from the
original topic and the next round number `N + 1`. -/
theorem C7_next_subtopic_extraction (topic : String) (round_num : Nat)
    (output_text : String) :
    ((∃ p, matchNextAt (output_text.data.drop p) ≠ none) →
      ∃ p g, findFirstNext output_text.data = some g
        ∧ matchNextAt (output_text.data.drop p) = some g
        ∧ (∀ q, q < p → matchNextAt (output_text.data.drop q) = none)
        ∧ nextSubtopic topic round_num output_text = String.mk (pyStripL g))
    ∧ ((∀ p, matchNextAt (output_text.data.drop p) = none) →
      nextSubtopic topic round_num output_text
        = topic ++ " — deeper dive round " ++ toString (round_num + 1)) := by
  constructor
  · intro ⟨p0, hp0⟩
    cases hf : findFirstNext output_text.data with
    | none => exact absurd ((findFirstNext_leftmost output_text.data).1 hf p0) hp0
    | some g =>
      obtain ⟨p, hp, hmin⟩ := (findFirstNext_leftmost output_text.data).2 g hf
      exact ⟨p, g, rfl, hp, hmin, by simp [nextSubtopic, hf]⟩
  · intro hall
    cases hf : findFirstNext output_text.data with
    | none => simp [nextSubtopic, hf]
    | some g =>
      obtain ⟨p, hp, _⟩ := (findFirstNext_leftmost output_text.data).2 g hf
      rw [hall p] at hp
      exact absurd hp (by simp)

/-- Concrete instantiation of C7: a catalog with two `NEXT:` lines takes
the first capture, stripped; a catalog with none gets the fallback. -/
theorem C7_next_subtopic_extraction_witness :
    nextSubtopic "rust" 1 "go\nNEXT: borrow checker internals\nNEXT: b"
      = "borrow checker internals"
    ∧ nextSubtopic "rust" 1 "no follow ups" = "rust — deeper dive round 2" := by
  have h1 := (C7_next_subtopic_extraction "rust" 1
    "go\nNEXT: borrow checker internals\nNEXT: b").1 ⟨3, by decide⟩
  have hnone : findFirstNext ("no follow ups" : String).data = none := by decide
  have h2 := (C7_next_subtopic_extraction "rust" 1 "no follow ups").2
    ((findFirstNext_leftmost ("no follow ups" : String).data).1 hnone)
  obtain ⟨p, g, hf, _, _, he⟩ := h1
  have hgval : g = ("borrow checker internals" : String).data := by
    have hff : findFirstNext
        ("go\nNEXT: borrow checker internals\nNEXT: b" : String).data
        = some ("borrow checker internals" : String).data := by decide
    rw [hff] at hf
    exact (Option.some_inj.mp hf).symm
  subst hgval
  rw [he]
  exact ⟨by decide, h2⟩

/-! ## Research-loop master index (claim C8) -/

/-- Counterexample to C8 as stated: a 2-round uncancelled research run in
which each round writes its catalog (and no raw data survives). The master
index body lists exactly the two round catalogs — it does NOT list the
master index file itself, because `index_path` is appended to
`files_created` only after the index body has been written from it
(swarm.py:680-689). The index file is nonetheless part of the returned
artifact list. -/
theorem C8_counterexample :
    (run_research_loop "t" "out"
        [⟨false, 0, .ok "alpha", "s"⟩, ⟨false, 0, .ok "beta", "s"⟩]).indexListed
      = ["round_01_t.md", "round_02_t_deeper_dive_round_2.md"]
    ∧ "research_index.md" ∉
        (run_research_loop "t" "out"
          [⟨false, 0, .ok "alpha", "s"⟩, ⟨false, 0, .ok "beta", "s"⟩]).indexListed
    ∧ (run_research_loop "t" "out"
        [⟨false, 0, .ok "alpha", "s"⟩, ⟨false, 0, .ok "beta", "s"⟩]).files_created
      = ["out/round_01_t.md", "out/round_02_t_deeper_dive_round_2.md",
         "out/research_index.md"] := by
  refine ⟨by decide, by decide, by decide⟩

/-- C8 as amended: after an uncancelled 2-round research loop, the master
index body lists exactly the 2 round catalog artifacts plus each raw-data
artifact that exists with nonzero size (in round order); the master index
file itself is appended to the returned artifact list but is not part of
its own listing. -/
theorem C8_master_index_contents (topic dir : String) (r1 r2 : RoundData) :
    (run_research_loop topic dir [r1, r2]).files_created
      = [catalog_path dir 1 topic]
        ++ (if rawKept r1 then [raw_file_path dir 1] else [])
        ++ [catalog_path dir 2 (nextSubtopic topic 1 (roundOutputText r1))]
        ++ (if rawKept r2 then [raw_file_path dir 2] else [])
        ++ [dir ++ "/research_index.md"]
    ∧ (run_research_loop topic dir [r1, r2]).indexListed
      = ((run_research_loop topic dir [r1, r2]).files_created.dropLast).map
          basename := by
  constructor
  · simp [run_research_loop, researchGo]
  · simp only [run_research_loop]
    rw [List.dropLast_concat]

/-! ## PowerShell blocklist (claim C9) -/

/-- C9: any command whose lowercased, `/`-to-`\` normalized text contains a
blocklist pattern is refused by `run_powershell` with `blocked` status and
the first matching entry's reason, before the command is executed and
regardless of the safety level — `read_only`, `confirmed` and `full_auto`
alike. -/
theorem C9_blocklist_overrides_safety (cmd : String)
    (h : ∃ p ∈ PS_BLOCKLIST, containsSub (normalizeCmd cmd) p.1.data = true) :
    ∃ p ∈ PS_BLOCKLIST, containsSub (normalizeCmd cmd) p.1.data = true
      ∧ check_powershell_blocklist cmd = some p.2
      ∧ ∀ (safety : Safety) (confirm : Bool),
          run_powershell safety confirm cmd = .blocked p.2 := by
  have hsome : (PS_BLOCKLIST.find? fun p =>
      containsSub (normalizeCmd cmd) p.1.data).isSome := by
    rw [List.find?_isSome]
    obtain ⟨p, hmem, hp⟩ := h
    exact ⟨p, hmem, hp⟩
  obtain ⟨q, hq⟩ := Option.isSome_iff_exists.mp hsome
  have hqmem : q ∈ PS_BLOCKLIST := List.mem_of_find?_eq_some hq
  have hqp : containsSub (normalizeCmd cmd) q.1.data = true := by
    simpa using List.find?_some hq
  refine ⟨q, hqmem, hqp, ?_, ?_⟩
  · simp [check_powershell_blocklist, hq]
  · intro safety confirm
    simp [run_powershell, check_powershell_blocklist, hq]

/-- Concrete instantiation of C9: `Format-Volume` is refused even under
`full_auto`, and under every other safety level. -/
theorem C9_blocklist_overrides_safety_witness :
    check_powershell_blocklist "Format-Volume -DriveLetter C"
      = some "Cannot format drives"
    ∧ run_powershell .full_auto true "Format-Volume -DriveLetter C"
      = .blocked "Cannot format drives"
    ∧ run_powershell .read_only false "Format-Volume -DriveLetter C"
      = .blocked "Cannot format drives" := by
  obtain ⟨p, _, _, hcheck, hall⟩ :=
    C9_blocklist_overrides_safety "Format-Volume -DriveLetter C"
      ⟨("format-volume", "Cannot format drives"), by decide, by decide⟩
  have hval : check_powershell_blocklist "Format-Volume -DriveLetter C"
      = some "Cannot format drives" := by decide
  have hp2 : p.2 = "Cannot format drives" := by
    rw [hcheck] at hval
    exact Option.some_inj.mp hval
  rw [hp2] at hcheck hall
  exact ⟨hcheck, hall .full_auto true, hall .read_only false⟩

end GrokHive
